import Mathlib

/-!
Shallow embedding of the FitFlow server (Express + MongoDB) core routes,
translated from `src/unnamed/part_001`:

* `POST /bookings`             (lines 1452-1597)  — `reserveSlot`
* `POST /trainers/rating/:id`  (lines 460-517)    — `submitRating`
* `POST /community/vote`       (lines 949-999)    — `castVote`
* `PATCH /trainers/:id/status` (lines 373-428)    — `patchTrainerStatus`

Modelling conventions:

* Each MongoDB collection is a `List` of documents; `findOne`/a positional
  `updateOne`/`deleteOne` act on the first matching element, as MongoDB does.
* A JS field that may be absent is an `Option`; the JS read `x.f || d` is
  `(x.f).getD d` (for numeric fields the JS falsy value `0` coincides with
  the default, so `Option.getD 0` is faithful).
* JS numbers used as money or rating values are `ℚ`; counts are `ℕ`.
* `new Date()` timestamps are not modelled as document fields; their only
  observable effect in the modelled routes is that an `updateOne` whose
  `$set` contains a fresh `Date` always modifies a matched document, so for
  those updates `modifiedCount ≠ 0 ↔ a document matched`.  The vote route is
  the one modelled update with no timestamp in its `$set`; there
  `modifiedCount ≠ 0 ↔ the written fields differ from the stored ones`.
* `ObjectId.isValid` string-format checks are not modelled: ids are `ℕ`
  (a missing id in a request body is `none`).
-/

namespace FitFlow

/-- A member descriptor pushed into `slots.$.bookedMembers`. -/
structure MemberInfo where
  name : String
  email : String
  package : String
deriving DecidableEq

/-- One bookable slot, embedded in a trainer document (`slots` array). -/
structure Slot where
  id : String
  maxParticipants : Nat
  bookingCount : Option Nat
  bookedMembers : List MemberInfo
  isBooked : Bool
  status : Option String
deriving DecidableEq

/-- One entry of a trainer's `ratings` array. -/
structure RatingEntry where
  email : String
  name : String
  photoURL : String
  rating : ℚ
deriving DecidableEq

/-- A trainer document. -/
structure Trainer where
  tid : Nat
  email : String
  status : String
  ratings : Option (List RatingEntry)
  rating : Option ℚ
  adminFeedback : Option String
  slots : List Slot
deriving DecidableEq

/-- A user document. -/
structure User where
  email : String
  displayName : Option String
  photoURL : Option String
  role : String
deriving DecidableEq

/-- A booking document (pass-through metadata fields such as `slotTime`,
`description`, `slotDay`, … carry no control flow and are omitted). -/
structure Booking where
  bid : Nat
  email : String
  trainerId : Nat
  slotId : String
  price : ℚ
  transactionId : String
  paymentStatus : String
deriving DecidableEq

/-- One entry of a community post's `votes` array. -/
structure VoteEntry where
  email : String
  type : String
deriving DecidableEq

/-- A community post document (fields the vote route touches). -/
structure Post where
  pid : Nat
  votes : Option (List VoteEntry)
  likes : Option Nat
  dislikes : Option Nat
deriving DecidableEq

/-- The decoded Firebase token (`req.decoded`). -/
structure Decoded where
  email : String
  displayName : Option String
deriving DecidableEq

/-- JS `a || d` for an optional string (`none` and `""` are falsy). -/
def strOr (a : Option String) (d : String) : String :=
  match a with
  | some s => if s = "" then d else s
  | none => d

/-- `updateOne`: rewrite the first element satisfying `p` with `f`. -/
def updateFirst (p : α → Bool) (f : α → α) : List α → List α
  | [] => []
  | a :: l => if p a then f a :: l else a :: updateFirst p f l

/-- `deleteOne`: drop the first element satisfying `p`. -/
def deleteFirst (p : α → Bool) : List α → List α
  | [] => []
  | a :: l => if p a then l else a :: deleteFirst p l

/-! ## `POST /bookings` (part_001 lines 1452-1597) -/

/-- The request body of `POST /bookings`, restricted to the fields the
handler reads.  `none` models an absent field. -/
structure BookingReq where
  email : String
  trainerId : Option Nat
  slotId : String
  packageName : Option String
  price : Option ℚ
  transactionId : String
  paymentStatus : Option String
  memberInfo : Option MemberInfo
deriving DecidableEq

/-- Result of `POST /bookings`, one constructor per exit of the handler. -/
inductive BookRes where
  | badRequest : BookRes
  | forbidden : BookRes
  | notFound : BookRes
  | conflict : BookRes
  | rolledBack : BookRes
  | created : Nat → BookRes
deriving DecidableEq

/-- HTTP status code attached to each exit of `POST /bookings`. -/
def BookRes.code : BookRes → Nat
  | .badRequest => 400
  | .forbidden => 403
  | .notFound => 404
  | .conflict => 409
  | .rolledBack => 500
  | .created _ => 201

/-- The store state `POST /bookings` touches.  `nextBookingId` stands for the
fresh `_id` MongoDB would mint for the next `insertOne`. -/
structure BookState where
  trainers : List Trainer
  bookings : List Booking
  nextBookingId : Nat
deriving DecidableEq

/-- The aggregation `$match {_id, status: accepted}` of lines 1480-1504:
first trainer with the given id and status `accepted`. -/
def findTrainerAccepted (tid : Nat) (ts : List Trainer) : Option Trainer :=
  ts.find? (fun t => t.tid == tid && t.status == "accepted")

/-- `$unwind` + `$match {slots.id: slotId}` + `[0]`: first slot of the
trainer whose `id` matches. -/
def findSlot (sid : String) (t : Trainer) : Option Slot :=
  t.slots.find? (fun s => s.id == sid)

/-- The `$inc`/`$push`/`$set` of lines 1561-1571 applied to the positionally
matched slot. -/
def applySlotUpdate (member : MemberInfo) (full : Bool) (sl : Slot) : Slot :=
  { sl with
    bookingCount := some (sl.bookingCount.getD 0 + 1)
    bookedMembers := sl.bookedMembers ++ [member]
    isBooked := if full then true else sl.isBooked
    status := if full then some "booked" else sl.status }

/-- Filter of the `updateOne` at line 1574-1577:
`{_id: trainerId, "slots.id": slotId}`. -/
def trainerSlotMatch (tid : Nat) (sid : String) (t : Trainer) : Bool :=
  t.tid == tid && t.slots.any (fun s => s.id == sid)

/-- The handler of `POST /bookings`, with an explicit interference function
`g` applied to the trainer collection between the two store writes (the
booking `insertOne` and the trainer `updateOne`).  The sequential handler is
`reserveSlot = reserveSlotWith id`; a nontrivial `g` models the concurrent
window the compensation logic of lines 1579-1583 exists for. -/
def reserveSlotWith (g : List Trainer → List Trainer) (decoded : Decoded)
    (r : BookingReq) (s : BookState) : BookRes × BookState :=
  match r.trainerId, r.price with
  | some tid, some price =>
    if r.email = "" ∨ r.slotId = "" ∨ r.transactionId = "" then
      (.badRequest, s)
    else if price ≤ 0 then
      (.badRequest, s)
    else if decoded.email ≠ r.email then
      (.forbidden, s)
    else
      match findTrainerAccepted tid s.trainers with
      | none => (.notFound, s)
      | some t =>
        match findSlot r.slotId t with
        | none => (.notFound, s)
        | some sl =>
          let count := sl.bookingCount.getD 0
          if sl.maxParticipants ≤ count then
            (.conflict, s)
          else
            let b : Booking :=
              { bid := s.nextBookingId, email := r.email, trainerId := tid
                slotId := r.slotId, price := price
                transactionId := r.transactionId
                paymentStatus := strOr r.paymentStatus "Completed" }
            let bookings1 := s.bookings ++ [b]
            let trainers1 := g s.trainers
            let member := r.memberInfo.getD
              { name := strOr decoded.displayName r.email, email := r.email
                package := strOr r.packageName "N/A" }
            let full : Bool := sl.maxParticipants == 1 || sl.maxParticipants ≤ count + 1
            let trainers2 := updateFirst (trainerSlotMatch tid r.slotId)
              (fun tr => { tr with
                slots := updateFirst (fun x => x.id == r.slotId)
                  (applySlotUpdate member full) tr.slots }) trainers1
            if trainers1.any (trainerSlotMatch tid r.slotId) then
              (.created b.bid,
                { trainers := trainers2, bookings := bookings1
                  nextBookingId := s.nextBookingId + 1 })
            else
              (.rolledBack,
                { trainers := trainers2
                  bookings := deleteFirst (fun x => x.bid == b.bid) bookings1
                  nextBookingId := s.nextBookingId + 1 })
  | _, _ => (.badRequest, s)

/-- The sequential handler of `POST /bookings` (no interference). -/
def reserveSlot (decoded : Decoded) (r : BookingReq) (s : BookState) :
    BookRes × BookState :=
  reserveSlotWith id decoded r s

/-! ## `POST /trainers/rating/:id` (part_001 lines 460-517) -/

/-- Result of `POST /trainers/rating/:id`. -/
inductive RateRes where
  | badRequest : RateRes
  | notFound : RateRes
  | forbidden : RateRes
  | conflict : RateRes
  | ok : RateRes
deriving DecidableEq

/-- HTTP status code of each exit of `POST /trainers/rating/:id`. -/
def RateRes.code : RateRes → Nat
  | .badRequest => 400
  | .notFound => 404
  | .forbidden => 403
  | .conflict => 409
  | .ok => 200

/-- `findOne {_id}` on the trainer collection. -/
def findTrainer (tid : Nat) (ts : List Trainer) : Option Trainer :=
  ts.find? (fun t => t.tid == tid)

/-- `findOne {email}` on the user collection. -/
def findUser (e : String) (us : List User) : Option User :=
  us.find? (fun u => u.email == e)

/-- The `$set` of lines 501-510 applied to the trainer read at line 470:
append the new rating entry and store the recomputed arithmetic mean
(lines 497-499). -/
def ratedTrainer (userEmail : String) (v : ℚ) (users : List User)
    (t : Trainer) : Trainer :=
  let u := findUser userEmail users
  let newRating : RatingEntry :=
    { email := userEmail
      name := strOr (u.bind (fun x => x.displayName)) "Anonymous User"
      photoURL := strOr (u.bind (fun x => x.photoURL)) ""
      rating := v }
  let updatedRatings := t.ratings.getD [] ++ [newRating]
  { t with ratings := some updatedRatings
           rating := some ((updatedRatings.map (fun rr => rr.rating)).sum /
             updatedRatings.length) }

/-- The handler of `POST /trainers/rating/:id`.  `rating = none` models a
body whose `rating` is not a number. -/
def submitRating (userEmail : String) (rating : Option ℚ) (tid : Nat)
    (users : List User) (trainers : List Trainer) : RateRes × List Trainer :=
  match rating with
  | none => (.badRequest, trainers)
  | some v =>
    if v < 1 ∨ 5 < v then
      (.badRequest, trainers)
    else
      match findTrainer tid trainers with
      | none => (.notFound, trainers)
      | some t =>
        if t.status ≠ "accepted" then
          (.forbidden, trainers)
        else if (t.ratings.getD []).any (fun rr => rr.email == userEmail) then
          (.conflict, trainers)
        else
          (.ok,
            updateFirst (fun tr => tr.tid == tid)
              (fun _ => ratedTrainer userEmail v users t) trainers)

/-! ## `POST /community/vote` (part_001 lines 949-999) -/

/-- Result of `POST /community/vote`. -/
inductive VoteRes where
  | invalidPost : VoteRes
  | invalidType : VoteRes
  | notFound : VoteRes
  | updateFailed : VoteRes
  | ok : Nat → Nat → VoteRes
deriving DecidableEq

/-- HTTP status code of each exit of `POST /community/vote`. -/
def VoteRes.code : VoteRes → Nat
  | .invalidPost => 400
  | .invalidType => 400
  | .notFound => 404
  | .updateFailed => 500
  | .ok _ _ => 200

/-- The check `["like", "dislike", null].includes(voteType)` (line 958). -/
def validVoteType (voteType : Option String) : Bool :=
  voteType == some "like" || voteType == some "dislike" || voteType == none

/-- `findOne {_id}` on the community collection. -/
def findPost (pid : Nat) (ps : List Post) : Option Post :=
  ps.find? (fun p => p.pid == pid)

/-- The vote list after the remove/push of lines 965-974. -/
def newVotes (email : String) (voteType : Option String)
    (votes : List VoteEntry) : List VoteEntry :=
  let votes1 :=
    if votes.any (fun v => v.email == email) then
      votes.filter (fun v => !(v.email == email))
    else votes
  match voteType with
  | some ty => votes1 ++ [{ email := email, type := ty }]
  | none => votes1

/-- Likes tally of a vote list (line 976). -/
def countLikes (votes : List VoteEntry) : Nat :=
  (votes.filter (fun v => v.type == "like")).length

/-- Dislikes tally of a vote list (line 977). -/
def countDislikes (votes : List VoteEntry) : Nat :=
  (votes.filter (fun v => v.type == "dislike")).length

/-- The handler of `POST /community/vote`.  Its `updateOne` carries no
timestamp, so `modifiedCount = 0` exactly when the written `votes`, `likes`
and `dislikes` equal the stored ones; the handler then answers 500
("Failed to update vote") and the store is unchanged. -/
def castVote (email : String) (postId : Option Nat) (voteType : Option String)
    (posts : List Post) : VoteRes × List Post :=
  match postId with
  | none => (.invalidPost, posts)
  | some pid =>
    if ¬ validVoteType voteType then
      (.invalidType, posts)
    else
      match findPost pid posts with
      | none => (.notFound, posts)
      | some p =>
        let votes2 := newVotes email voteType (p.votes.getD [])
        let likes := countLikes votes2
        let dislikes := countDislikes votes2
        let p2 : Post :=
          { p with votes := some votes2, likes := some likes
                   dislikes := some dislikes }
        if p2 = p then
          (.updateFailed, posts)
        else
          (.ok likes dislikes, updateFirst (fun x => x.pid == pid) (fun _ => p2) posts)

/-! ## `PATCH /trainers/:id/status` (part_001 lines 373-428, middleware
`verifyFBToken` lines 39-53 and `verifyAdmin` lines 56-75) -/

/-- Result of `PATCH /trainers/:id/status`. -/
inductive StatusRes where
  | unauthorized : StatusRes
  | forbidden : StatusRes
  | badRequest : StatusRes
  | notFound : StatusRes
  | ok : StatusRes
deriving DecidableEq

/-- HTTP status code of each exit of `PATCH /trainers/:id/status`. -/
def StatusRes.code : StatusRes → Nat
  | .unauthorized => 401
  | .forbidden => 403
  | .badRequest => 400
  | .notFound => 404
  | .ok => 200

/-- The handler of `PATCH /trainers/:id/status` including its middleware.
`decoded = none` models a request `verifyFBToken` rejected for want of a
bearer token.  The final trainer `updateOne` sets a fresh `updatedAt`, so its
`modifiedCount` is nonzero exactly when a trainer with the id exists. -/
def patchTrainerStatus (decoded : Option Decoded) (tid : Nat) (status : String)
    (feedback : Option String) (users : List User) (trainers : List Trainer) :
    StatusRes × List User × List Trainer :=
  match decoded with
  | none => (.unauthorized, users, trainers)
  | some d =>
    if d.email = "" then
      (.unauthorized, users, trainers)
    else
      match findUser d.email users with
      | none => (.forbidden, users, trainers)
      | some u =>
        if u.role ≠ "admin" then
          (.forbidden, users, trainers)
        else if status ≠ "accepted" ∧ status ≠ "rejected" then
          (.badRequest, users, trainers)
        else
          let users1 :=
            match findTrainer tid trainers with
            | some t =>
              if t.email ≠ "" then
                updateFirst (fun x => x.email == t.email)
                  (fun x => { x with
                    role := if status = "accepted" then "trainer" else "member" })
                  users
              else users
            | none => users
          let trainers1 :=
            updateFirst (fun x => x.tid == tid)
              (fun x => { x with
                status := status
                adminFeedback :=
                  match feedback with
                  | some fb => if fb = "" then x.adminFeedback else some fb
                  | none => x.adminFeedback }) trainers
          if trainers.any (fun x => x.tid == tid) then
            (.ok, users1, trainers1)
          else
            (.notFound, users1, trainers1)

/-! ## Derived predicates -/

/-- Well-formedness of the trainer collection: document ids are unique
(a MongoDB `_id` guarantee) and every slot satisfies the capacity
invariant `bookingCount ≤ maxParticipants`. -/
def TrainersOK (ts : List Trainer) : Prop :=
  (ts.map Trainer.tid).Nodup ∧
  ∀ t ∈ ts, ∀ sl ∈ t.slots, sl.bookingCount.getD 0 ≤ sl.maxParticipants

instance (ts : List Trainer) : Decidable (TrainersOK ts) := by
  unfold TrainersOK; infer_instance

/-- The vote state of `(post, voter)`: `none` for no-vote, otherwise the
`type` of the voter's entry in the post's `votes` array. -/
def voterState (e : String) (p : Post) : Option String :=
  ((p.votes.getD []).find? (fun v => v.email == e)).map (fun v => v.type)

/-- Well-formedness of a post: the `votes` list is materialised, has at
most one entry per email, and the cached `likes`/`dislikes` counters equal
the tallies of the vote list. -/
def WfPost (p : Post) : Prop :=
  ∃ vs, p.votes = some vs ∧ (vs.map VoteEntry.email).Nodup ∧
    p.likes = some (countLikes vs) ∧ p.dislikes = some (countDislikes vs)

/-! ## Store-level lemmas -/

theorem updateFirst_of_any_eq_false {p : α → Bool} (f : α → α) {l : List α}
    (h : l.any p = false) : updateFirst p f l = l := by
  induction l with
  | nil => rfl
  | cons a l ih =>
    simp only [List.any_cons, Bool.or_eq_false_iff] at h
    simp [updateFirst, h.1, ih h.2]

theorem find?_updateFirst {p : α → Bool} {f : α → α} (l : List α)
    (hp : ∀ a, p a = true → p (f a) = true) :
    (updateFirst p f l).find? p = (l.find? p).map f := by
  induction l with
  | nil => rfl
  | cons a l ih =>
    by_cases h : p a = true
    · rw [updateFirst, if_pos h, List.find?_cons_of_pos _ (hp a h),
        List.find?_cons_of_pos _ h, Option.map_some']
    · rw [updateFirst, if_neg h, List.find?_cons_of_neg _ (by simpa using h),
        List.find?_cons_of_neg _ (by simpa using h), ih]

theorem mem_updateFirst {p : α → Bool} {f : α → α} {l : List α} {x : α}
    (hx : x ∈ updateFirst p f l) :
    x ∈ l ∨ ∃ a, l.find? p = some a ∧ x = f a := by
  induction l with
  | nil => cases hx
  | cons a l ih =>
    by_cases h : p a = true
    · rw [updateFirst, if_pos h] at hx
      rcases List.mem_cons.mp hx with h1 | h1
      · exact Or.inr ⟨a, List.find?_cons_of_pos _ h, h1⟩
      · exact Or.inl (List.mem_cons_of_mem _ h1)
    · rw [updateFirst, if_neg h] at hx
      rcases List.mem_cons.mp hx with h1 | h1
      · exact Or.inl (h1 ▸ List.mem_cons_self _ _)
      · rcases ih h1 with h2 | ⟨b, hb, hxb⟩
        · exact Or.inl (List.mem_cons_of_mem _ h2)
        · exact Or.inr ⟨b, by rw [List.find?_cons_of_neg _ (by simpa using h)]; exact hb, hxb⟩

theorem map_updateFirst (k : α → β) {p : α → Bool} {f : α → α} (l : List α)
    (hk : ∀ a, k (f a) = k a) :
    (updateFirst p f l).map k = l.map k := by
  induction l with
  | nil => rfl
  | cons a l ih =>
    by_cases h : p a = true
    · simp [updateFirst, h, hk]
    · simp only [updateFirst, if_neg h, List.map_cons, ih]

theorem deleteFirst_append_singleton {p : α → Bool} {l : List α} {a : α}
    (hl : ∀ x ∈ l, p x = false) (ha : p a = true) :
    deleteFirst p (l ++ [a]) = l := by
  induction l with
  | nil => simp [deleteFirst, ha]
  | cons b l ih =>
    have hb := hl b (List.mem_cons_self _ _)
    rw [List.cons_append, deleteFirst, if_neg (by simp [hb]),
      ih (fun x hx => hl x (List.mem_cons_of_mem _ hx))]

theorem find?_append_singleton {p : α → Bool} {l : List α} (a : α)
    (hl : ∀ x ∈ l, p x = false) :
    (l ++ [a]).find? p = if p a then some a else none := by
  induction l with
  | nil => by_cases h : p a = true <;> simp [List.find?, h]
  | cons b l ih =>
    have hb := hl b (List.mem_cons_self _ _)
    rw [List.cons_append, List.find?_cons_of_neg _ (by simp [hb]),
      ih (fun x hx => hl x (List.mem_cons_of_mem _ hx))]

/-! ## Capacity invariant (claim C1) -/

theorem TrainersOK_updateFirst_slot (tid : Nat) (sid : String)
    (m : MemberInfo) (full : Bool) {ts : List Trainer} (h : TrainersOK ts)
    {t : Trainer} {sl : Slot}
    (ht : findTrainerAccepted tid ts = some t)
    (hsl : findSlot sid t = some sl)
    (hcnt : sl.bookingCount.getD 0 < sl.maxParticipants) :
    TrainersOK (updateFirst (trainerSlotMatch tid sid)
      (fun tr => { tr with
        slots := updateFirst (fun x => x.id == sid)
          (applySlotUpdate m full) tr.slots }) ts) := by
  obtain ⟨hnd, hcap⟩ := h
  constructor
  · have hm : List.map Trainer.tid (updateFirst (trainerSlotMatch tid sid)
        (fun tr => { tr with
          slots := updateFirst (fun x => x.id == sid)
            (applySlotUpdate m full) tr.slots }) ts) = List.map Trainer.tid ts :=
      map_updateFirst _ _ (fun a => rfl)
    rw [hm]; exact hnd
  · intro x hx
    rcases mem_updateFirst hx with hmem | ⟨a, hfa, rfl⟩
    · exact hcap x hmem
    · have hma := List.mem_of_find?_eq_some hfa
      have hmt := List.mem_of_find?_eq_some ht
      have h1 : a.tid = tid := by
        have hpa := List.find?_some hfa
        simp [trainerSlotMatch] at hpa
        exact hpa.1
      have h2 : t.tid = tid := by
        have hpt := List.find?_some ht
        simp at hpt
        exact hpt.1
      have hat : a = t :=
        List.inj_on_of_nodup_map hnd hma hmt (h1.trans h2.symm)
      subst hat
      intro sl2 hsl2
      rcases mem_updateFirst hsl2 with hmem2 | ⟨b, hfb, rfl⟩
      · exact hcap a hma sl2 hmem2
      · have hbs : b = sl := by
          rw [findSlot, hfb] at hsl
          exact Option.some.inj hsl
        subst hbs
        simp only [applySlotUpdate, Option.getD_some]
        omega

theorem reserveSlot_preserves_TrainersOK (d : Decoded) (r : BookingReq)
    (s : BookState) (h : TrainersOK s.trainers) :
    TrainersOK ((reserveSlot d r s).2.trainers) := by
  unfold reserveSlot reserveSlotWith
  split
  case h_2 => exact h
  case h_1 tid price heqt heqp =>
    split
    · exact h
    · split
      · exact h
      · split
        · exact h
        · split
          case h_1 => exact h
          case h_2 t ht =>
            split
            case h_1 => exact h
            case h_2 sl hsl =>
              dsimp only [id]
              split
              · exact h
              · next hcnt =>
                split
                all_goals
                  exact TrainersOK_updateFirst_slot _ _ _ _ h ht hsl
                    (by omega)

/-- C1: starting from a trainer collection whose slots all satisfy
`bookingCount ≤ maxParticipants` (and whose document ids are unique, as the
store guarantees), any sequence of `POST /bookings` requests leaves every
slot with `bookingCount ≤ maxParticipants`; moreover a request that reaches
a slot whose `bookingCount` has reached `maxParticipants` leaves the whole
store unchanged (so no count is incremented). -/
theorem booking_capacity_invariant
    (reqs : List (Decoded × BookingReq)) (s0 : BookState)
    (h : TrainersOK s0.trainers) :
    TrainersOK
      ((reqs.foldl (fun s dr => (reserveSlot dr.1 dr.2 s).2) s0).trainers)
    ∧ ∀ (d : Decoded) (r : BookingReq) (s : BookState) (tid : Nat)
        (t : Trainer) (sl : Slot),
        r.trainerId = some tid →
        findTrainerAccepted tid s.trainers = some t →
        findSlot r.slotId t = some sl →
        sl.maxParticipants ≤ sl.bookingCount.getD 0 →
        (reserveSlot d r s).2 = s := by
  constructor
  · induction reqs generalizing s0 with
    | nil => exact h
    | cons dr reqs ih =>
      exact ih _ (reserveSlot_preserves_TrainersOK dr.1 dr.2 s0 h)
  · intro d r s tid t sl hti hft hfs hfull
    unfold reserveSlot reserveSlotWith
    split
    case h_2 => rfl
    case h_1 tid2 price heqt heqp =>
      rw [hti] at heqt
      injection heqt with htid
      subst htid
      split
      · rfl
      · split
        · rfl
        · split
          · rfl
          · split
            case h_1 => rfl
            case h_2 t2 ht2 =>
              rw [hft] at ht2
              injection ht2 with ht2
              subst ht2
              split
              case h_1 => rfl
              case h_2 sl2 hsl2 =>
                rw [hfs] at hsl2
                injection hsl2 with hsl2
                subst hsl2
                dsimp only [id]
                split
                · rfl
                · next hcnt => exact absurd hfull hcnt

/-- Witness for `booking_capacity_invariant`: one booking request against a
one-seat slot, starting from an empty store with one accepted trainer. -/
theorem booking_capacity_invariant_witness :
    TrainersOK
      (([((⟨"a@x", none⟩ : Decoded),
          (⟨"a@x", some 1, "s1", none, some 10, "tx", none, none⟩ : BookingReq))].foldl
        (fun s dr => (reserveSlot dr.1 dr.2 s).2)
        ⟨[⟨1, "t@x", "accepted", none, none, none,
          [⟨"s1", 1, none, [], false, none⟩]⟩], [], 0⟩).trainers) :=
  (booking_capacity_invariant _ _ (by decide)).1

/-- C2: a well-formed, self-addressed booking request whose target slot of
an accepted trainer is full (`bookingCount ≥ maxParticipants`) answers
HTTP 409 and changes nothing: no booking document is inserted and no
trainer document is touched. -/
theorem slot_full_conflict (d : Decoded) (r : BookingReq) (s : BookState)
    (tid : Nat) (price : ℚ) (t : Trainer) (sl : Slot)
    (hti : r.trainerId = some tid) (hpr : r.price = some price)
    (he : r.email ≠ "") (hs : r.slotId ≠ "") (htx : r.transactionId ≠ "")
    (hp : 0 < price) (hde : d.email = r.email)
    (hft : findTrainerAccepted tid s.trainers = some t)
    (hfs : findSlot r.slotId t = some sl)
    (hfull : sl.maxParticipants ≤ sl.bookingCount.getD 0) :
    reserveSlot d r s = (.conflict, s) ∧ BookRes.code .conflict = 409 := by
  refine ⟨?_, rfl⟩
  simp only [reserveSlot, reserveSlotWith, hti, hpr, hft, hfs]
  rw [if_neg (by simp [he, hs, htx]), if_neg (not_le.mpr hp),
    if_neg (not_not_intro hde), if_pos hfull]

/-- Witness for `slot_full_conflict`: a full one-seat slot. -/
theorem slot_full_conflict_witness :
    reserveSlot ⟨"a@x", none⟩
      ⟨"a@x", some 1, "s1", none, some 10, "tx", none, none⟩
      ⟨[⟨1, "t@x", "accepted", none, none, none,
        [⟨"s1", 1, some 1, [], true, some "booked"⟩]⟩], [], 5⟩
      = (.conflict,
        ⟨[⟨1, "t@x", "accepted", none, none, none,
          [⟨"s1", 1, some 1, [], true, some "booked"⟩]⟩], [], 5⟩)
    ∧ BookRes.code .conflict = 409 :=
  slot_full_conflict _ _ _ 1 10 _ _ rfl rfl (by decide) (by decide)
    (by decide) (by norm_num) rfl rfl rfl (by decide)

/-- C3: in any `POST /bookings` run that reaches phase 2 (the booking was
inserted) and whose trainer/slot `updateOne` then matches no document —
here because the interference `g` applied between the two writes left no
trainer matching `{_id, "slots.id"}` — the handler deletes the booking it
just inserted before answering: the final booking collection equals the
initial one, so the booking no longer exists. -/
theorem booking_compensation (g : List Trainer → List Trainer) (d : Decoded)
    (r : BookingReq) (s : BookState) (tid : Nat) (price : ℚ)
    (t : Trainer) (sl : Slot)
    (hti : r.trainerId = some tid) (hpr : r.price = some price)
    (he : r.email ≠ "") (hs : r.slotId ≠ "") (htx : r.transactionId ≠ "")
    (hp : 0 < price) (hde : d.email = r.email)
    (hft : findTrainerAccepted tid s.trainers = some t)
    (hfs : findSlot r.slotId t = some sl)
    (hroom : sl.bookingCount.getD 0 < sl.maxParticipants)
    (hfresh : ∀ b ∈ s.bookings, b.bid ≠ s.nextBookingId)
    (hnomatch : ∀ t2 ∈ g s.trainers, trainerSlotMatch tid r.slotId t2 = false) :
    (reserveSlotWith g d r s).1 = .rolledBack ∧
    BookRes.code .rolledBack = 500 ∧
    (reserveSlotWith g d r s).2.bookings = s.bookings := by
  have hany : (g s.trainers).any (trainerSlotMatch tid r.slotId) = false := by
    rw [List.any_eq_false]
    intro x hx
    simp [hnomatch x hx]
  simp only [reserveSlotWith, hti, hpr, hft, hfs]
  rw [if_neg (by simp [he, hs, htx]), if_neg (not_le.mpr hp),
    if_neg (not_not_intro hde), if_neg (not_le.mpr hroom),
    if_neg (by simp [hany])]
  refine ⟨rfl, rfl, ?_⟩
  exact deleteFirst_append_singleton
    (fun x hx => by simp [hfresh x hx]) (by simp)

/-- Witness for `booking_compensation`: the trainer collection is emptied
between the booking insert and the slot update; the inserted booking is
compensated away and the booking collection ends empty. -/
theorem booking_compensation_witness :
    (reserveSlotWith (fun _ => []) ⟨"a@x", none⟩
      ⟨"a@x", some 1, "s1", none, some 10, "tx", none, none⟩
      ⟨[⟨1, "t@x", "accepted", none, none, none,
        [⟨"s1", 2, none, [], false, none⟩]⟩], [], 0⟩).1 = .rolledBack ∧
    BookRes.code .rolledBack = 500 ∧
    (reserveSlotWith (fun _ => []) ⟨"a@x", none⟩
      ⟨"a@x", some 1, "s1", none, some 10, "tx", none, none⟩
      ⟨[⟨1, "t@x", "accepted", none, none, none,
        [⟨"s1", 2, none, [], false, none⟩]⟩], [], 0⟩).2.bookings = [] :=
  booking_compensation _ _ _ _ 1 10 _ _ rfl rfl (by decide) (by decide)
    (by decide) (by norm_num) rfl rfl rfl (by decide) (by decide)
    (by decide)

/-- C4 counterexample: the body email `b@x` differs from the authenticated
principal `a@x`, yet the handler answers 400 (the body lacks `price`, and
the basic-validation check of line 1463 runs before the self-booking check
of line 1475), not 403 as the claim states. -/
theorem self_booking_not_always_forbidden :
    ("a@x" : String) ≠ "b@x" ∧
    reserveSlot ⟨"a@x", none⟩
      ⟨"b@x", some 1, "s1", none, none, "tx", none, none⟩ ⟨[], [], 0⟩
      = (.badRequest, ⟨[], [], 0⟩) ∧
    BookRes.code .badRequest = 400 ∧ (400 : Nat) ≠ 403 := by
  refine ⟨by decide, rfl, rfl, by decide⟩

/-- C4 (amended): a booking request whose body email differs from the
authenticated email never mutates the store (no booking insert, no trainer
change), and whenever such a request passes the basic input validation the
handler answers 403 Forbidden. -/
theorem self_booking_forbidden (d : Decoded) (r : BookingReq) (s : BookState)
    (hne : d.email ≠ r.email) :
    (reserveSlot d r s).2 = s ∧
    ∀ (tid : Nat) (price : ℚ), r.trainerId = some tid → r.price = some price →
      r.email ≠ "" → r.slotId ≠ "" → r.transactionId ≠ "" → 0 < price →
      reserveSlot d r s = (.forbidden, s) ∧ BookRes.code .forbidden = 403 := by
  constructor
  · cases hti : r.trainerId with
    | none => simp [reserveSlot, reserveSlotWith, hti]
    | some tid =>
      cases hpr : r.price with
      | none => simp [reserveSlot, reserveSlotWith, hti, hpr]
      | some price =>
        by_cases h1 : r.email = "" ∨ r.slotId = "" ∨ r.transactionId = ""
        · simp [reserveSlot, reserveSlotWith, hti, hpr, h1]
        · by_cases h2 : price ≤ 0
          · simp [reserveSlot, reserveSlotWith, hti, hpr, h1, h2]
          · simp [reserveSlot, reserveSlotWith, hti, hpr, h1, h2, hne]
  · intro tid price hti hpr he hs htx hp
    refine ⟨?_, rfl⟩
    simp only [reserveSlot, reserveSlotWith, hti, hpr]
    rw [if_neg (by simp [he, hs, htx]), if_neg (not_le.mpr hp), if_pos hne]

/-- Witness for `self_booking_forbidden`: a fully valid body addressed to a
different account is rejected with 403 and the store is untouched. -/
theorem self_booking_forbidden_witness :
    reserveSlot ⟨"a@x", none⟩
      ⟨"b@x", some 1, "s1", none, some 10, "tx", none, none⟩ ⟨[], [], 0⟩
      = (.forbidden, ⟨[], [], 0⟩) ∧ BookRes.code .forbidden = 403 :=
  (self_booking_forbidden ⟨"a@x", none⟩
    ⟨"b@x", some 1, "s1", none, some 10, "tx", none, none⟩ ⟨[], [], 0⟩
    (by decide)).2 1 10 rfl rfl (by decide) (by decide) (by decide)
    (by norm_num)

/-! ## Rating aggregation (claims C5, C6) -/

theorem find?_updateFirst_const {p : α → Bool} {l : List α} {a b : α}
    (hf : l.find? p = some a) (hb : p b = true) :
    (updateFirst p (fun _ => b) l).find? p = some b := by
  rw [find?_updateFirst _ (fun x _ => hb), hf, Option.map_some']

theorem ratedTrainer_tid (e : String) (v : ℚ) (users : List User)
    (t : Trainer) : (ratedTrainer e v users t).tid = t.tid := rfl

theorem submitRating_ok_eq (users : List User) (trainers : List Trainer)
    (e : String) (tid : Nat) (v : ℚ) (t : Trainer)
    (h1 : 1 ≤ v) (h5 : v ≤ 5)
    (hft : findTrainer tid trainers = some t)
    (hacc : t.status = "accepted")
    (hnew : (t.ratings.getD []).any (fun rr => rr.email == e) = false) :
    submitRating e (some v) tid users trainers
      = (.ok, updateFirst (fun tr => tr.tid == tid)
          (fun _ => ratedTrainer e v users t) trainers) := by
  simp only [submitRating, hft]
  rw [if_neg (by push_neg; exact ⟨h1, h5⟩),
    if_neg (not_not_intro hacc), if_neg (by simp [hnew])]

/-- C5: for a (trainer, rater) pair where the rater has not yet rated the
accepted trainer, the first valid `POST /trainers/rating/:id` call
succeeds, and a second valid call by the same rater answers 409 Conflict
and leaves the trainer collection — hence the ratings list, its length and
the stored `rating` field — unchanged. -/
theorem rating_idempotent (users : List User) (trainers : List Trainer)
    (e : String) (tid : Nat) (v v2 : ℚ) (t : Trainer)
    (h1 : 1 ≤ v) (h5 : v ≤ 5) (h1b : 1 ≤ v2) (h5b : v2 ≤ 5)
    (hft : findTrainer tid trainers = some t)
    (hacc : t.status = "accepted")
    (hnew : (t.ratings.getD []).any (fun rr => rr.email == e) = false) :
    (submitRating e (some v) tid users trainers).1 = .ok ∧
    submitRating e (some v2) tid users
        ((submitRating e (some v) tid users trainers).2)
      = (.conflict, (submitRating e (some v) tid users trainers).2) ∧
    RateRes.code .conflict = 409 := by
  rw [submitRating_ok_eq users trainers e tid v t h1 h5 hft hacc hnew]
  have htid : ((ratedTrainer e v users t).tid == tid) = true := by
    rw [ratedTrainer_tid]
    simpa using List.find?_some hft
  have hft2 : findTrainer tid (updateFirst (fun tr => tr.tid == tid)
      (fun _ => ratedTrainer e v users t) trainers)
      = some (ratedTrainer e v users t) :=
    find?_updateFirst_const hft htid
  refine ⟨rfl, ?_, rfl⟩
  simp only [submitRating, hft2]
  rw [if_neg (by push_neg; exact ⟨h1b, h5b⟩),
    if_neg (not_not_intro (show (ratedTrainer e v users t).status = "accepted" from hacc)),
    if_pos (show ((ratedTrainer e v users t).ratings.getD []).any
      (fun rr => rr.email == e) = true by simp [ratedTrainer])]

/-- Witness for `rating_idempotent`: rater `r1` rates an accepted trainer
with 3, then tries 5; the second call answers 409 and changes nothing. -/
theorem rating_idempotent_witness :
    (submitRating "r1" (some 3) 1 []
      [⟨1, "t@x", "accepted", none, none, none, []⟩]).1 = .ok ∧
    submitRating "r1" (some 5) 1 []
        ((submitRating "r1" (some 3) 1 []
          [⟨1, "t@x", "accepted", none, none, none, []⟩]).2)
      = (.conflict, (submitRating "r1" (some 3) 1 []
          [⟨1, "t@x", "accepted", none, none, none, []⟩]).2) ∧
    RateRes.code .conflict = 409 :=
  rating_idempotent [] _ "r1" 1 3 5 _ (by norm_num) (by norm_num)
    (by norm_num) (by norm_num) rfl rfl (by decide)

/-- C6: whenever `POST /trainers/rating/:id` succeeds, the updated trainer
document stores in `rating` exactly the arithmetic mean of the `rating`
values of all entries of its (nonempty) `ratings` list. -/
theorem rating_average_correct (users : List User)
    (trainers trainers2 : List Trainer) (e : String) (rating : Option ℚ)
    (tid : Nat)
    (hok : submitRating e rating tid users trainers = (.ok, trainers2)) :
    ∃ t2 rs, findTrainer tid trainers2 = some t2 ∧ t2.ratings = some rs ∧
      rs ≠ [] ∧
      t2.rating = some ((rs.map (fun rr => rr.rating)).sum / rs.length) := by
  unfold submitRating at hok
  split at hok
  case h_1 => exact absurd hok (by simp)
  case h_2 v =>
    split at hok
    · exact absurd hok (by simp)
    · split at hok
      case h_1 => exact absurd hok (by simp)
      case h_2 t hft =>
        split at hok
        · exact absurd hok (by simp)
        · split at hok
          · exact absurd hok (by simp)
          · injection hok with hres hts
            subst hts
            have htid : ((ratedTrainer e v users t).tid == tid) = true := by
              rw [ratedTrainer_tid]
              simpa using List.find?_some hft
            refine ⟨ratedTrainer e v users t, _,
              find?_updateFirst_const hft htid, rfl, by simp [ratedTrainer], rfl⟩

/-- Witness for `rating_average_correct`: three distinct raters submit
3, 5 and 4; the stored average after the third call equals 4. -/
theorem rating_average_correct_witness :
    ∃ t2 rs,
      findTrainer 1 ((submitRating "r3" (some 4) 1 []
        ((submitRating "r2" (some 5) 1 []
          ((submitRating "r1" (some 3) 1 []
            [⟨1, "t@x", "accepted", none, none, none, []⟩]).2)).2)).2)
        = some t2 ∧
      t2.ratings = some rs ∧ rs ≠ [] ∧
      t2.rating = some ((rs.map (fun rr => rr.rating)).sum / rs.length) :=
  rating_average_correct []
    ((submitRating "r2" (some 5) 1 []
      ((submitRating "r1" (some 3) 1 []
        [⟨1, "t@x", "accepted", none, none, none, []⟩]).2)).2)
    _ "r3" (some 4) 1
    (by
      simp [submitRating, findTrainer, ratedTrainer, updateFirst,
        strOr, findUser, List.find?]
      norm_num)

/-- The `[3,5,4]` scenario of the spec evaluates to a stored average of 4:
this pins the mean in `rating_average_correct_witness` to the concrete
value the specification demands. -/
theorem rating_average_three_five_four :
    (findTrainer 1 ((submitRating "r3" (some 4) 1 []
      ((submitRating "r2" (some 5) 1 []
        ((submitRating "r1" (some 3) 1 []
          [⟨1, "t@x", "accepted", none, none, none, []⟩]).2)).2)).2)).map
      (fun t2 => t2.rating) = some (some 4) := by
  norm_num [submitRating, findTrainer, ratedTrainer, updateFirst, strOr,
    findUser, List.find?]

/-! ## Vote tally (claims C7, C8, C10) -/

theorem find?_cons_pos (p : α → Bool) (a : α) (l : List α)
    (h : p a = true) : (a :: l).find? p = some a :=
  List.find?_cons_of_pos _ h

theorem find?_cons_neg (p : α → Bool) (a : α) (l : List α)
    (h : p a = false) : (a :: l).find? p = l.find? p :=
  List.find?_cons_of_neg _ (by simp [h])

theorem length_filter_type_of_remove (e ty : String) {vs : List VoteEntry}
    (hnd : (vs.map VoteEntry.email).Nodup) {v : VoteEntry}
    (hf : vs.find? (fun x => x.email == e) = some v) :
    ((vs.filter (fun x => !(x.email == e))).filter
        (fun x => x.type == ty)).length
      + (if v.type = ty then 1 else 0)
      = (vs.filter (fun x => x.type == ty)).length := by
  induction vs with
  | nil => cases hf
  | cons w l ih =>
    by_cases hw : (w.email == e) = true
    · rw [find?_cons_pos (fun x => x.email == e) w l hw] at hf
      injection hf with hf
      subst hf
      have he : w.email = e := by simpa using hw
      have hl2 : ∀ x ∈ l, (x.email == e) = false := by
        intro x hx
        have hnotin : w.email ∉ l.map VoteEntry.email :=
          (List.nodup_cons.mp hnd).1
        have : x.email ≠ e := by
          intro hxe
          exact hnotin (he ▸ hxe ▸ List.mem_map_of_mem VoteEntry.email hx)
        simpa using this
      have hfl : l.filter (fun x => !(x.email == e)) = l :=
        List.filter_eq_self.mpr (fun x hx => by simp [hl2 x hx])
      rw [List.filter_cons, if_neg (by simp [hw]), hfl, List.filter_cons]
      by_cases hty : (w.type == ty) = true
      · have hty2 : w.type = ty := by simpa using hty
        rw [if_pos hty, if_pos hty2]
        simp
      · have hty2 : ¬ w.type = ty := by simpa using hty
        rw [if_neg hty, if_neg hty2]
        simp
    · rw [find?_cons_neg (fun x => x.email == e) w l
        (by simpa using hw)] at hf
      have hnd2 := (List.nodup_cons.mp hnd).2
      have hrec := ih hnd2 hf
      rw [List.filter_cons, if_pos (by simp [hw]), List.filter_cons,
        List.filter_cons]
      by_cases hty : (w.type == ty) = true
      · rw [if_pos hty, if_pos hty]
        simp only [List.length_cons]
        omega
      · rw [if_neg hty, if_neg hty]
        exact hrec

theorem newVotes_of_none {e : String} {vs : List VoteEntry}
    (hfe : vs.find? (fun x => x.email == e) = none) (ty : String) :
    newVotes e (some ty) vs = vs ++ [{ email := e, type := ty }] := by
  have hany : vs.any (fun x => x.email == e) = false := by
    rw [List.any_eq_false]
    intro x hx
    simpa using List.find?_eq_none.mp hfe x hx
  simp [newVotes, hany]

theorem any_email_of_find? {e : String} {vs : List VoteEntry}
    {v : VoteEntry} (hfv : vs.find? (fun x => x.email == e) = some v) :
    vs.any (fun x => x.email == e) = true := by
  have hpv := List.find?_some hfv
  exact List.any_eq_true.mpr ⟨v, List.mem_of_find?_eq_some hfv, hpv⟩

theorem newVotes_of_some_push {e : String} {vs : List VoteEntry}
    {v : VoteEntry} (hfv : vs.find? (fun x => x.email == e) = some v)
    (ty : String) :
    newVotes e (some ty) vs =
      (vs.filter (fun x => !(x.email == e))) ++ [{ email := e, type := ty }] := by
  simp [newVotes, any_email_of_find? hfv]

theorem newVotes_of_some_null {e : String} {vs : List VoteEntry}
    {v : VoteEntry} (hfv : vs.find? (fun x => x.email == e) = some v) :
    newVotes e none vs = vs.filter (fun x => !(x.email == e)) := by
  simp [newVotes, any_email_of_find? hfv]

theorem filter_email_all_false (e : String) (vs : List VoteEntry) :
    ∀ x ∈ vs.filter (fun y => !(y.email == e)), (x.email == e) = false := by
  intro x hx
  simpa using (List.mem_filter.mp hx).2

/-- C8: `POST /community/vote` preserves post well-formedness: afterwards
the targeted post still has at most one vote entry per email and its
cached `likes`/`dislikes` counters equal the tallies recomputed from the
vote list (which the handler always rewrites from scratch). -/
theorem nodup_newVotes (e : String) (vt : Option String)
    (vs : List VoteEntry) (hnd : (vs.map VoteEntry.email).Nodup) :
    ((newVotes e vt vs).map VoteEntry.email).Nodup := by
  cases hfv : vs.find? (fun x => x.email == e) with
  | none =>
    have hall : ∀ x ∈ vs, (x.email == e) = false := by
      intro x hx
      simpa using List.find?_eq_none.mp hfv x hx
    have hany : vs.any (fun x => x.email == e) = false := by
      rw [List.any_eq_false]
      intro x hx
      simp [hall x hx]
    cases vt with
    | none => simpa [newVotes, hany] using hnd
    | some ty =>
      rw [newVotes_of_none hfv ty, List.map_append, List.nodup_append]
      refine ⟨hnd, by simp, ?_⟩
      intro x hx hy
      simp only [List.map_cons, List.map_nil, List.mem_singleton] at hy
      rcases List.mem_map.mp hx with ⟨w, hw, hwe⟩
      have hfw := hall w hw
      rw [hwe, hy] at hfw
      simp at hfw
  | some v =>
    have hsub : ((vs.filter (fun x => !(x.email == e))).map
        VoteEntry.email).Sublist (vs.map VoteEntry.email) :=
      (List.filter_sublist vs).map VoteEntry.email
    have hndf := hnd.sublist hsub
    cases vt with
    | none => rw [newVotes_of_some_null hfv]; exact hndf
    | some ty =>
      rw [newVotes_of_some_push hfv ty, List.map_append, List.nodup_append]
      refine ⟨hndf, by simp, ?_⟩
      intro x hx hy
      simp only [List.map_cons, List.map_nil, List.mem_singleton] at hy
      rcases List.mem_map.mp hx with ⟨w, hw, hwe⟩
      have hfw := filter_email_all_false e vs w hw
      rw [hwe, hy] at hfw
      simp at hfw

/-- C8: `POST /community/vote` preserves post well-formedness: afterwards
the targeted post still has at most one vote entry per email and its
cached `likes`/`dislikes` counters equal the tallies recomputed from the
vote list (which the handler always rewrites from scratch). -/
theorem vote_tally_invariant (e : String) (postId : Option Nat)
    (vt : Option String) (posts : List Post)
    (hwf : ∀ p ∈ posts, WfPost p) :
    ∀ p2 ∈ (castVote e postId vt posts).2, WfPost p2 := by
  unfold castVote
  split
  · exact hwf
  · split
    · exact hwf
    · split
      case h_1 => exact hwf
      case h_2 p hfp =>
        dsimp only
        split
        · exact hwf
        · intro p2 hp2
          rcases mem_updateFirst hp2 with hmem | ⟨a, -, rfl⟩
          · exact hwf p2 hmem
          · obtain ⟨vs, hv, hnd, -, -⟩ :=
              hwf p (List.mem_of_find?_eq_some hfp)
            refine ⟨_, rfl, ?_, rfl, rfl⟩
            rw [hv]
            exact nodup_newVotes _ _ _ hnd

theorem castVote_result (e : String) (pid : Nat) (posts : List Post)
    (p : Post) (vt : Option String) (vs2 : List VoteEntry)
    (hfp : findPost pid posts = some p) (hvt : validVoteType vt = true)
    (hv2 : newVotes e vt (p.votes.getD []) = vs2)
    (hne : ({ p with
        votes := some vs2
        likes := some (countLikes vs2)
        dislikes := some (countDislikes vs2) } : Post) ≠ p) :
    castVote e (some pid) vt posts =
      (.ok (countLikes vs2) (countDislikes vs2),
        updateFirst (fun x => x.pid == pid)
          (fun _ => { p with
            votes := some vs2
            likes := some (countLikes vs2)
            dislikes := some (countDislikes vs2) }) posts) := by
  simp only [castVote, hfp, hv2]
  rw [if_neg (by simp [hvt]), if_neg hne]

theorem castVote_nochange (e : String) (pid : Nat) (posts : List Post)
    (p : Post) (vt : Option String) (vs2 : List VoteEntry)
    (hfp : findPost pid posts = some p) (hvt : validVoteType vt = true)
    (hv2 : newVotes e vt (p.votes.getD []) = vs2)
    (heq : ({ p with
        votes := some vs2
        likes := some (countLikes vs2)
        dislikes := some (countDislikes vs2) } : Post) = p) :
    castVote e (some pid) vt posts = (.updateFailed, posts) := by
  simp only [castVote, hfp, hv2]
  rw [if_neg (by simp [hvt]), if_pos heq]

theorem findPost_after (pid : Nat) (posts : List Post) (p p2 : Post)
    (hfp : findPost pid posts = some p) (hp2 : p2.pid = p.pid) :
    findPost pid (updateFirst (fun x => x.pid == pid) (fun _ => p2) posts)
      = some p2 := by
  have hb := List.find?_some hfp
  exact find?_updateFirst_const hfp (by rw [hp2]; exact hb)

theorem countLikes_append_one (vs : List VoteEntry) (x : VoteEntry) :
    countLikes (vs ++ [x]) =
      countLikes vs + (if x.type = "like" then 1 else 0) := by
  by_cases h : (x.type == "like") = true
  · have h2 : x.type = "like" := by simpa using h
    simp [countLikes, List.filter_append, h, h2]
  · have h2 : ¬ x.type = "like" := by simpa using h
    simp [countLikes, List.filter_append, h, h2]

theorem countDislikes_append_one (vs : List VoteEntry) (x : VoteEntry) :
    countDislikes (vs ++ [x]) =
      countDislikes vs + (if x.type = "dislike" then 1 else 0) := by
  by_cases h : (x.type == "dislike") = true
  · have h2 : x.type = "dislike" := by simpa using h
    simp [countDislikes, List.filter_append, h, h2]
  · have h2 : ¬ x.type = "dislike" := by simpa using h
    simp [countDislikes, List.filter_append, h, h2]

theorem countLikes_filter_remove (e : String) {vs : List VoteEntry}
    (hnd : (vs.map VoteEntry.email).Nodup) {v : VoteEntry}
    (hf : vs.find? (fun x => x.email == e) = some v) :
    countLikes (vs.filter (fun x => !(x.email == e)))
      + (if v.type = "like" then 1 else 0) = countLikes vs :=
  length_filter_type_of_remove e "like" hnd hf

theorem countDislikes_filter_remove (e : String) {vs : List VoteEntry}
    (hnd : (vs.map VoteEntry.email).Nodup) {v : VoteEntry}
    (hf : vs.find? (fun x => x.email == e) = some v) :
    countDislikes (vs.filter (fun x => !(x.email == e)))
      + (if v.type = "dislike" then 1 else 0) = countDislikes vs :=
  length_filter_type_of_remove e "dislike" hnd hf

theorem voterState_push (e ty : String) {p2 : Post} {l : List VoteEntry}
    (h : p2.votes = some (l ++ [{ email := e, type := ty }]))
    (hall : ∀ x ∈ l, (x.email == e) = false) :
    voterState e p2 = some ty := by
  simp only [voterState, h, Option.getD_some]
  rw [find?_append_singleton _ hall, if_pos (by simp)]
  rfl

theorem voterState_gone (e : String) {p2 : Post} {l : List VoteEntry}
    (h : p2.votes = some l)
    (hall : ∀ x ∈ l, (x.email == e) = false) :
    voterState e p2 = none := by
  simp only [voterState, h, Option.getD_some]
  rw [List.find?_eq_none.mpr (fun x hx => by simp [hall x hx])]
  rfl

theorem find?_email_none_of_voterState {e : String} {p : Post}
    {vs : List VoteEntry} (hv : p.votes = some vs)
    (hrow : voterState e p = none) :
    vs.find? (fun x => x.email == e) = none := by
  simpa [voterState, hv] using hrow

theorem find?_email_some_of_voterState {e ty : String} {p : Post}
    {vs : List VoteEntry} (hv : p.votes = some vs)
    (hrow : voterState e p = some ty) :
    ∃ v, vs.find? (fun x => x.email == e) = some v ∧ v.type = ty := by
  simp only [voterState, hv, Option.getD_some, Option.map_eq_some'] at hrow
  exact hrow

/-- C7 counterexample: on the post `{votes: [bob: like], likes: 1,
dislikes: 0}` the claimed transition table fails twice.  Voter `bob`
sending `like` again is not a toggle-off: the handler rebuilds the same
vote list, the `updateOne` modifies nothing and the call fails with 500
(the claim demands success with `likes` decremented).  Voter `alice` (state
no-vote) sending `null` is likewise answered 500 "Failed to update vote",
not 400 BadRequest as the claim states. -/
theorem vote_toggle_counterexample :
    castVote "bob" (some 1) (some "like")
        [⟨1, some [⟨"bob", "like"⟩], some 1, some 0⟩]
      = (.updateFailed, [⟨1, some [⟨"bob", "like"⟩], some 1, some 0⟩]) ∧
    castVote "alice" (some 1) none
        [⟨1, some [⟨"bob", "like"⟩], some 1, some 0⟩]
      = (.updateFailed, [⟨1, some [⟨"bob", "like"⟩], some 1, some 0⟩]) ∧
    VoteRes.code .updateFailed = 500 ∧ (500 : Nat) ≠ 400 := by
  decide

/-- C7 (amended): the `(post, voter)` transition table the code
implements, on a well-formed post.  From no-vote, `like`/`dislike` records
the vote and increments the matching recomputed counter.  A repeated
identical vote is NOT a toggle-off: the vote and both counters are
unchanged (the call either reports the unchanged tallies with 200 or fails
with 500 when the rebuilt vote list is identical).  A switched vote moves
one count between the counters.  From no-vote, `null` is accepted by the
vote-type validation but the unchanged document makes the `updateOne`
report no modification, so the handler answers 500 "Failed to update
vote" — not 400 BadRequest — with no state change. -/
theorem vote_toggle_machine (e : String) (pid : Nat) (posts : List Post)
    (p : Post) (vs : List VoteEntry)
    (hfp : findPost pid posts = some p)
    (hv : p.votes = some vs)
    (hnd : (vs.map VoteEntry.email).Nodup)
    (hl : p.likes = some (countLikes vs))
    (hd : p.dislikes = some (countDislikes vs)) :
    (voterState e p = none →
      (castVote e (some pid) (some "like") posts).1
          = .ok (countLikes vs + 1) (countDislikes vs) ∧
      ∃ p2, findPost pid ((castVote e (some pid) (some "like") posts).2)
          = some p2 ∧
        voterState e p2 = some "like" ∧
        p2.likes = some (countLikes vs + 1) ∧
        p2.dislikes = some (countDislikes vs)) ∧
    (voterState e p = none →
      (castVote e (some pid) (some "dislike") posts).1
          = .ok (countLikes vs) (countDislikes vs + 1) ∧
      ∃ p2, findPost pid ((castVote e (some pid) (some "dislike") posts).2)
          = some p2 ∧
        voterState e p2 = some "dislike" ∧
        p2.likes = some (countLikes vs) ∧
        p2.dislikes = some (countDislikes vs + 1)) ∧
    (voterState e p = some "like" →
      ((castVote e (some pid) (some "like") posts).1
          = .ok (countLikes vs) (countDislikes vs) ∨
        castVote e (some pid) (some "like") posts = (.updateFailed, posts)) ∧
      ∃ p2, findPost pid ((castVote e (some pid) (some "like") posts).2)
          = some p2 ∧
        voterState e p2 = some "like" ∧
        p2.likes = some (countLikes vs) ∧
        p2.dislikes = some (countDislikes vs)) ∧
    (voterState e p = some "dislike" →
      ((castVote e (some pid) (some "dislike") posts).1
          = .ok (countLikes vs) (countDislikes vs) ∨
        castVote e (some pid) (some "dislike") posts
          = (.updateFailed, posts)) ∧
      ∃ p2, findPost pid ((castVote e (some pid) (some "dislike") posts).2)
          = some p2 ∧
        voterState e p2 = some "dislike" ∧
        p2.likes = some (countLikes vs) ∧
        p2.dislikes = some (countDislikes vs)) ∧
    (voterState e p = some "like" →
      (castVote e (some pid) (some "dislike") posts).1
          = .ok (countLikes vs - 1) (countDislikes vs + 1) ∧
      ∃ p2, findPost pid ((castVote e (some pid) (some "dislike") posts).2)
          = some p2 ∧
        voterState e p2 = some "dislike" ∧
        p2.likes = some (countLikes vs - 1) ∧
        p2.dislikes = some (countDislikes vs + 1)) ∧
    (voterState e p = some "dislike" →
      (castVote e (some pid) (some "like") posts).1
          = .ok (countLikes vs + 1) (countDislikes vs - 1) ∧
      ∃ p2, findPost pid ((castVote e (some pid) (some "like") posts).2)
          = some p2 ∧
        voterState e p2 = some "like" ∧
        p2.likes = some (countLikes vs + 1) ∧
        p2.dislikes = some (countDislikes vs - 1)) ∧
    (voterState e p = none →
      castVote e (some pid) none posts = (.updateFailed, posts) ∧
      VoteRes.code .updateFailed = 500) := by
  refine ⟨?_, ?_, ?_, ?_, ?_, ?_, ?_⟩
  · -- no-vote, like
    intro hrow
    have hfe := find?_email_none_of_voterState hv hrow
    have hall : ∀ x ∈ vs, (x.email == e) = false := fun x hx => by
      simpa using List.find?_eq_none.mp hfe x hx
    have hv2 : newVotes e (some "like") (p.votes.getD [])
        = vs ++ [{ email := e, type := "like" }] := by
      rw [hv]
      simp only [Option.getD_some]
      exact newVotes_of_none hfe "like"
    have hcl : countLikes (vs ++ [{ email := e, type := "like" }])
        = countLikes vs + 1 := by
      rw [countLikes_append_one]
      simp
    have hcd : countDislikes (vs ++ [{ email := e, type := "like" }])
        = countDislikes vs := by
      rw [countDislikes_append_one]
      simp
    have hne : ({ p with
        votes := some (vs ++ [{ email := e, type := "like" }])
        likes := some (countLikes (vs ++ [{ email := e, type := "like" }]))
        dislikes := some (countDislikes
          (vs ++ [{ email := e, type := "like" }])) } : Post) ≠ p := by
      intro hcontra
      have hlen := congrArg (fun q => (q.votes.getD []).length) hcontra
      simp [hv] at hlen
    rw [castVote_result e pid posts p (some "like") _ hfp (by decide)
      hv2 hne]
    refine ⟨by rw [hcl, hcd], _,
      findPost_after pid posts p _ hfp rfl,
      voterState_push e "like" rfl hall, ?_, ?_⟩
    · show some (countLikes (vs ++ [{ email := e, type := "like" }])) = _
      rw [hcl]
    · show some (countDislikes (vs ++ [{ email := e, type := "like" }])) = _
      rw [hcd]
  · -- no-vote, dislike
    intro hrow
    have hfe := find?_email_none_of_voterState hv hrow
    have hall : ∀ x ∈ vs, (x.email == e) = false := fun x hx => by
      simpa using List.find?_eq_none.mp hfe x hx
    have hv2 : newVotes e (some "dislike") (p.votes.getD [])
        = vs ++ [{ email := e, type := "dislike" }] := by
      rw [hv]
      simp only [Option.getD_some]
      exact newVotes_of_none hfe "dislike"
    have hcl : countLikes (vs ++ [{ email := e, type := "dislike" }])
        = countLikes vs := by
      rw [countLikes_append_one]
      simp
    have hcd : countDislikes (vs ++ [{ email := e, type := "dislike" }])
        = countDislikes vs + 1 := by
      rw [countDislikes_append_one]
      simp
    have hne : ({ p with
        votes := some (vs ++ [{ email := e, type := "dislike" }])
        likes := some (countLikes (vs ++ [{ email := e, type := "dislike" }]))
        dislikes := some (countDislikes
          (vs ++ [{ email := e, type := "dislike" }])) } : Post) ≠ p := by
      intro hcontra
      have hlen := congrArg (fun q => (q.votes.getD []).length) hcontra
      simp [hv] at hlen
    rw [castVote_result e pid posts p (some "dislike") _ hfp (by decide)
      hv2 hne]
    refine ⟨by rw [hcl, hcd], _,
      findPost_after pid posts p _ hfp rfl,
      voterState_push e "dislike" rfl hall, ?_, ?_⟩
    · show some (countLikes (vs ++ [{ email := e, type := "dislike" }])) = _
      rw [hcl]
    · show some (countDislikes (vs ++ [{ email := e, type := "dislike" }])) = _
      rw [hcd]
  · -- liked, like: no toggle-off
    intro hrow
    obtain ⟨v, hfv, hty⟩ := find?_email_some_of_voterState hv hrow
    have hv2 : newVotes e (some "like") (p.votes.getD [])
        = vs.filter (fun x => !(x.email == e))
            ++ [{ email := e, type := "like" }] := by
      rw [hv]
      simp only [Option.getD_some]
      exact newVotes_of_some_push hfv "like"
    have h2l := countLikes_filter_remove e hnd hfv
    rw [if_pos hty] at h2l
    have h2d := countDislikes_filter_remove e hnd hfv
    rw [if_neg (by rw [hty]; decide)] at h2d
    have hcl : countLikes (vs.filter (fun x => !(x.email == e))
        ++ [{ email := e, type := "like" }]) = countLikes vs := by
      rw [countLikes_append_one]
      simp
      omega
    have hcd : countDislikes (vs.filter (fun x => !(x.email == e))
        ++ [{ email := e, type := "like" }]) = countDislikes vs := by
      rw [countDislikes_append_one]
      simp
      omega
    by_cases hcase : ({ p with
        votes := some (vs.filter (fun x => !(x.email == e))
          ++ [{ email := e, type := "like" }])
        likes := some (countLikes (vs.filter (fun x => !(x.email == e))
          ++ [{ email := e, type := "like" }]))
        dislikes := some (countDislikes (vs.filter (fun x => !(x.email == e))
          ++ [{ email := e, type := "like" }])) } : Post) = p
    · rw [castVote_nochange e pid posts p (some "like") _ hfp (by decide)
        hv2 hcase]
      exact ⟨Or.inr rfl, p, hfp, hrow, hl, hd⟩
    · rw [castVote_result e pid posts p (some "like") _ hfp (by decide)
        hv2 hcase]
      refine ⟨Or.inl (by rw [hcl, hcd]), _,
        findPost_after pid posts p _ hfp rfl,
        voterState_push e "like" rfl (filter_email_all_false e vs), ?_, ?_⟩
      · show some (countLikes (vs.filter (fun x => !(x.email == e))
          ++ [{ email := e, type := "like" }])) = _
        rw [hcl]
      · show some (countDislikes (vs.filter (fun x => !(x.email == e))
          ++ [{ email := e, type := "like" }])) = _
        rw [hcd]
  · -- disliked, dislike: no toggle-off
    intro hrow
    obtain ⟨v, hfv, hty⟩ := find?_email_some_of_voterState hv hrow
    have hv2 : newVotes e (some "dislike") (p.votes.getD [])
        = vs.filter (fun x => !(x.email == e))
            ++ [{ email := e, type := "dislike" }] := by
      rw [hv]
      simp only [Option.getD_some]
      exact newVotes_of_some_push hfv "dislike"
    have h2l := countLikes_filter_remove e hnd hfv
    rw [if_neg (by rw [hty]; decide)] at h2l
    have h2d := countDislikes_filter_remove e hnd hfv
    rw [if_pos hty] at h2d
    have hcl : countLikes (vs.filter (fun x => !(x.email == e))
        ++ [{ email := e, type := "dislike" }]) = countLikes vs := by
      rw [countLikes_append_one]
      simp
      omega
    have hcd : countDislikes (vs.filter (fun x => !(x.email == e))
        ++ [{ email := e, type := "dislike" }]) = countDislikes vs := by
      rw [countDislikes_append_one]
      simp
      omega
    by_cases hcase : ({ p with
        votes := some (vs.filter (fun x => !(x.email == e))
          ++ [{ email := e, type := "dislike" }])
        likes := some (countLikes (vs.filter (fun x => !(x.email == e))
          ++ [{ email := e, type := "dislike" }]))
        dislikes := some (countDislikes (vs.filter (fun x => !(x.email == e))
          ++ [{ email := e, type := "dislike" }])) } : Post) = p
    · rw [castVote_nochange e pid posts p (some "dislike") _ hfp (by decide)
        hv2 hcase]
      exact ⟨Or.inr rfl, p, hfp, hrow, hl, hd⟩
    · rw [castVote_result e pid posts p (some "dislike") _ hfp (by decide)
        hv2 hcase]
      refine ⟨Or.inl (by rw [hcl, hcd]), _,
        findPost_after pid posts p _ hfp rfl,
        voterState_push e "dislike" rfl (filter_email_all_false e vs), ?_, ?_⟩
      · show some (countLikes (vs.filter (fun x => !(x.email == e))
          ++ [{ email := e, type := "dislike" }])) = _
        rw [hcl]
      · show some (countDislikes (vs.filter (fun x => !(x.email == e))
          ++ [{ email := e, type := "dislike" }])) = _
        rw [hcd]
  · -- liked, dislike: switch
    intro hrow
    obtain ⟨v, hfv, hty⟩ := find?_email_some_of_voterState hv hrow
    have hv2 : newVotes e (some "dislike") (p.votes.getD [])
        = vs.filter (fun x => !(x.email == e))
            ++ [{ email := e, type := "dislike" }] := by
      rw [hv]
      simp only [Option.getD_some]
      exact newVotes_of_some_push hfv "dislike"
    have h2l := countLikes_filter_remove e hnd hfv
    rw [if_pos hty] at h2l
    have h2d := countDislikes_filter_remove e hnd hfv
    rw [if_neg (by rw [hty]; decide)] at h2d
    have hcl : countLikes (vs.filter (fun x => !(x.email == e))
        ++ [{ email := e, type := "dislike" }]) = countLikes vs - 1 := by
      rw [countLikes_append_one]
      simp
      omega
    have hcd : countDislikes (vs.filter (fun x => !(x.email == e))
        ++ [{ email := e, type := "dislike" }]) = countDislikes vs + 1 := by
      rw [countDislikes_append_one]
      simp
      omega
    have hne : ({ p with
        votes := some (vs.filter (fun x => !(x.email == e))
          ++ [{ email := e, type := "dislike" }])
        likes := some (countLikes (vs.filter (fun x => !(x.email == e))
          ++ [{ email := e, type := "dislike" }]))
        dislikes := some (countDislikes (vs.filter (fun x => !(x.email == e))
          ++ [{ email := e, type := "dislike" }])) } : Post) ≠ p := by
      intro hcontra
      have hveq := congrArg Post.votes hcontra
      simp only [hv] at hveq
      injection hveq with hveq
      have hmem := List.mem_of_find?_eq_some hfv
      rw [← hveq] at hmem
      rcases List.mem_append.mp hmem with hmem2 | hmem2
      · have := (List.mem_filter.mp hmem2).2
        have hpv := List.find?_some hfv
        simp only [hpv] at this
        exact absurd this (by decide)
      · rw [List.mem_singleton] at hmem2
        rw [hmem2] at hty
        exact absurd hty (by simp)
    rw [castVote_result e pid posts p (some "dislike") _ hfp (by decide)
      hv2 hne]
    refine ⟨by rw [hcl, hcd], _,
      findPost_after pid posts p _ hfp rfl,
      voterState_push e "dislike" rfl (filter_email_all_false e vs), ?_, ?_⟩
    · show some (countLikes (vs.filter (fun x => !(x.email == e))
        ++ [{ email := e, type := "dislike" }])) = _
      rw [hcl]
    · show some (countDislikes (vs.filter (fun x => !(x.email == e))
        ++ [{ email := e, type := "dislike" }])) = _
      rw [hcd]
  · -- disliked, like: switch
    intro hrow
    obtain ⟨v, hfv, hty⟩ := find?_email_some_of_voterState hv hrow
    have hv2 : newVotes e (some "like") (p.votes.getD [])
        = vs.filter (fun x => !(x.email == e))
            ++ [{ email := e, type := "like" }] := by
      rw [hv]
      simp only [Option.getD_some]
      exact newVotes_of_some_push hfv "like"
    have h2l := countLikes_filter_remove e hnd hfv
    rw [if_neg (by rw [hty]; decide)] at h2l
    have h2d := countDislikes_filter_remove e hnd hfv
    rw [if_pos hty] at h2d
    have hcl : countLikes (vs.filter (fun x => !(x.email == e))
        ++ [{ email := e, type := "like" }]) = countLikes vs + 1 := by
      rw [countLikes_append_one]
      simp
      omega
    have hcd : countDislikes (vs.filter (fun x => !(x.email == e))
        ++ [{ email := e, type := "like" }]) = countDislikes vs - 1 := by
      rw [countDislikes_append_one]
      simp
      omega
    have hne : ({ p with
        votes := some (vs.filter (fun x => !(x.email == e))
          ++ [{ email := e, type := "like" }])
        likes := some (countLikes (vs.filter (fun x => !(x.email == e))
          ++ [{ email := e, type := "like" }]))
        dislikes := some (countDislikes (vs.filter (fun x => !(x.email == e))
          ++ [{ email := e, type := "like" }])) } : Post) ≠ p := by
      intro hcontra
      have hveq := congrArg Post.votes hcontra
      simp only [hv] at hveq
      injection hveq with hveq
      have hmem := List.mem_of_find?_eq_some hfv
      rw [← hveq] at hmem
      rcases List.mem_append.mp hmem with hmem2 | hmem2
      · have := (List.mem_filter.mp hmem2).2
        have hpv := List.find?_some hfv
        simp only [hpv] at this
        exact absurd this (by decide)
      · rw [List.mem_singleton] at hmem2
        rw [hmem2] at hty
        exact absurd hty (by simp)
    rw [castVote_result e pid posts p (some "like") _ hfp (by decide)
      hv2 hne]
    refine ⟨by rw [hcl, hcd], _,
      findPost_after pid posts p _ hfp rfl,
      voterState_push e "like" rfl (filter_email_all_false e vs), ?_, ?_⟩
    · show some (countLikes (vs.filter (fun x => !(x.email == e))
        ++ [{ email := e, type := "like" }])) = _
      rw [hcl]
    · show some (countDislikes (vs.filter (fun x => !(x.email == e))
        ++ [{ email := e, type := "like" }])) = _
      rw [hcd]
  · -- no-vote, null: 500, not 400
    intro hrow
    have hfe := find?_email_none_of_voterState hv hrow
    have hany : vs.any (fun x => x.email == e) = false := by
      rw [List.any_eq_false]
      intro x hx
      simpa using List.find?_eq_none.mp hfe x hx
    have hv2 : newVotes e none (p.votes.getD []) = vs := by
      rw [hv]
      simp only [Option.getD_some]
      simp [newVotes, hany]
    have heq : ({ p with
        votes := some vs
        likes := some (countLikes vs)
        dislikes := some (countDislikes vs) } : Post) = p := by
      cases p
      simp_all
    exact ⟨castVote_nochange e pid posts p none _ hfp (by decide) hv2 heq,
      rfl⟩

/-- Witness for `vote_toggle_machine`: voter `alice` (no vote yet) likes a
well-formed post holding one like by `bob`; the like is recorded and the
recomputed likes counter is incremented. -/
theorem vote_toggle_machine_witness :
    (castVote "alice" (some 1) (some "like")
        [⟨1, some [⟨"bob", "like"⟩], some 1, some 0⟩]).1
      = .ok (countLikes [⟨"bob", "like"⟩] + 1)
            (countDislikes [⟨"bob", "like"⟩]) ∧
    ∃ p2, findPost 1 ((castVote "alice" (some 1) (some "like")
        [⟨1, some [⟨"bob", "like"⟩], some 1, some 0⟩]).2) = some p2 ∧
      voterState "alice" p2 = some "like" ∧
      p2.likes = some (countLikes [⟨"bob", "like"⟩] + 1) ∧
      p2.dislikes = some (countDislikes [⟨"bob", "like"⟩]) :=
  (vote_toggle_machine "alice" 1
    [⟨1, some [⟨"bob", "like"⟩], some 1, some 0⟩]
    ⟨1, some [⟨"bob", "like"⟩], some 1, some 0⟩
    [⟨"bob", "like"⟩] rfl rfl (by decide) rfl rfl).1 rfl

/-- C10: a voter who has an existing vote entry on an existing post may
send `voteType = null`: the vote-type validation accepts `null`, the call
succeeds, the voter's entry is removed from the vote list, the counter
matching the removed entry's type is decremented and the recomputed
tallies are returned. -/
theorem vote_null_unvote (e : String) (pid : Nat) (posts : List Post)
    (p : Post) (vs : List VoteEntry) (v : VoteEntry)
    (hfp : findPost pid posts = some p)
    (hv : p.votes = some vs)
    (hnd : (vs.map VoteEntry.email).Nodup)
    (hfv : vs.find? (fun x => x.email == e) = some v) :
    validVoteType none = true ∧
    (castVote e (some pid) none posts).1
        = .ok (countLikes vs - (if v.type = "like" then 1 else 0))
              (countDislikes vs - (if v.type = "dislike" then 1 else 0)) ∧
    ∃ p2, findPost pid ((castVote e (some pid) none posts).2) = some p2 ∧
      voterState e p2 = none ∧
      p2.votes = some (vs.filter (fun x => !(x.email == e))) ∧
      p2.likes = some (countLikes vs - (if v.type = "like" then 1 else 0)) ∧
      p2.dislikes
        = some (countDislikes vs - (if v.type = "dislike" then 1 else 0)) := by
  have hv2 : newVotes e none (p.votes.getD [])
      = vs.filter (fun x => !(x.email == e)) := by
    rw [hv]
    simp only [Option.getD_some]
    exact newVotes_of_some_null hfv
  have h2l := countLikes_filter_remove e hnd hfv
  have h2d := countDislikes_filter_remove e hnd hfv
  have hcl : countLikes (vs.filter (fun x => !(x.email == e)))
      = countLikes vs - (if v.type = "like" then 1 else 0) := by
    omega
  have hcd : countDislikes (vs.filter (fun x => !(x.email == e)))
      = countDislikes vs - (if v.type = "dislike" then 1 else 0) := by
    omega
  have hne : ({ p with
      votes := some (vs.filter (fun x => !(x.email == e)))
      likes := some (countLikes (vs.filter (fun x => !(x.email == e))))
      dislikes := some (countDislikes
        (vs.filter (fun x => !(x.email == e)))) } : Post) ≠ p := by
    intro hcontra
    have hveq := congrArg Post.votes hcontra
    simp only [hv] at hveq
    injection hveq with hveq
    have hmem := List.mem_of_find?_eq_some hfv
    rw [← hveq] at hmem
    have := (List.mem_filter.mp hmem).2
    have hpv := List.find?_some hfv
    simp only [hpv] at this
    exact absurd this (by decide)
  rw [castVote_result e pid posts p none _ hfp (by decide) hv2 hne]
  refine ⟨rfl, by rw [hcl, hcd], _,
    findPost_after pid posts p _ hfp rfl,
    voterState_gone e rfl (filter_email_all_false e vs), rfl, ?_, ?_⟩
  · show some (countLikes (vs.filter (fun x => !(x.email == e)))) = _
    rw [hcl]
  · show some (countDislikes (vs.filter (fun x => !(x.email == e)))) = _
    rw [hcd]

/-- Witness for `vote_null_unvote`: `bob` removes his like with a `null`
vote; the likes counter drops from 1 to 0 and `c`'s dislike survives. -/
theorem vote_null_unvote_witness :
    validVoteType none = true ∧
    (castVote "bob" (some 1) none
        [⟨1, some [⟨"bob", "like"⟩, ⟨"c", "dislike"⟩], some 1, some 1⟩]).1
      = .ok (countLikes [⟨"bob", "like"⟩, ⟨"c", "dislike"⟩]
              - (if ("like" : String) = "like" then 1 else 0))
            (countDislikes [⟨"bob", "like"⟩, ⟨"c", "dislike"⟩]
              - (if ("like" : String) = "dislike" then 1 else 0)) ∧
    ∃ p2, findPost 1 ((castVote "bob" (some 1) none
        [⟨1, some [⟨"bob", "like"⟩, ⟨"c", "dislike"⟩], some 1, some 1⟩]).2)
        = some p2 ∧
      voterState "bob" p2 = none ∧
      p2.votes = some ([⟨"bob", "like"⟩, ⟨"c", "dislike"⟩].filter
        (fun x => !(x.email == "bob"))) ∧
      p2.likes = some (countLikes [⟨"bob", "like"⟩, ⟨"c", "dislike"⟩]
        - (if ("like" : String) = "like" then 1 else 0)) ∧
      p2.dislikes = some (countDislikes [⟨"bob", "like"⟩, ⟨"c", "dislike"⟩]
        - (if ("like" : String) = "dislike" then 1 else 0)) :=
  vote_null_unvote "bob" 1
    [⟨1, some [⟨"bob", "like"⟩, ⟨"c", "dislike"⟩], some 1, some 1⟩]
    ⟨1, some [⟨"bob", "like"⟩, ⟨"c", "dislike"⟩], some 1, some 1⟩
    [⟨"bob", "like"⟩, ⟨"c", "dislike"⟩] ⟨"bob", "like"⟩
    rfl rfl (by decide) rfl

/-- Witness for `vote_tally_invariant`: voter `bob` switches a like to a
dislike on a well-formed post; the stored post after the call is still
well-formed. -/
theorem vote_tally_invariant_witness :
    WfPost ⟨1, some [⟨"c", "like"⟩, ⟨"bob", "dislike"⟩], some 1, some 1⟩ :=
  vote_tally_invariant "bob" (some 1) (some "dislike")
    [⟨1, some [⟨"bob", "like"⟩, ⟨"c", "like"⟩], some 2, some 0⟩]
    (by
      intro p hp
      simp only [List.mem_singleton] at hp
      subst hp
      exact ⟨[⟨"bob", "like"⟩, ⟨"c", "like"⟩], rfl, by decide, rfl, rfl⟩)
    ⟨1, some [⟨"c", "like"⟩, ⟨"bob", "dislike"⟩], some 1, some 1⟩
    (by decide)

/-! ## Trainer lifecycle (claim C9) -/

theorem findUser_updateFirst_role (em role2 : String) (users : List User) :
    findUser em (updateFirst (fun x => x.email == em)
      (fun x => { x with role := role2 }) users)
      = (findUser em users).map (fun x => { x with role := role2 }) := by
  unfold findUser
  exact find?_updateFirst users (fun a ha => ha)

/-- C9: only an admin can drive the trainer status transition, and only to
`accepted` or `rejected`.  An admin decision `accepted` sets the linked
user's role to `trainer` and a decision `rejected` sets it to `member`;
a non-admin caller (or a missing/empty credential) gets 401/403 with no
change to either collection, and an admin sending any other status value
gets 400 with no change. -/
theorem trainer_status_transition (d : Decoded) (tid : Nat)
    (feedback : Option String) (users : List User)
    (trainers : List Trainer) (t : Trainer) (u lu : User)
    (hde : ¬ d.email = "")
    (hfu : findUser d.email users = some u) (hadmin : u.role = "admin")
    (hft : findTrainer tid trainers = some t) (hte : ¬ t.email = "")
    (hlu : findUser t.email users = some lu) :
    ((patchTrainerStatus (some d) tid "accepted" feedback users trainers).1
        = .ok ∧
      findUser t.email
        (patchTrainerStatus (some d) tid "accepted" feedback users
          trainers).2.1 = some { lu with role := "trainer" }) ∧
    ((patchTrainerStatus (some d) tid "rejected" feedback users trainers).1
        = .ok ∧
      findUser t.email
        (patchTrainerStatus (some d) tid "rejected" feedback users
          trainers).2.1 = some { lu with role := "member" }) ∧
    (∀ (d2 : Option Decoded) (status : String) (users2 : List User)
        (trainers2 : List Trainer),
      (∀ dd, d2 = some dd → ¬ dd.email = "" →
        ∀ u2, findUser dd.email users2 = some u2 → u2.role ≠ "admin") →
      (patchTrainerStatus d2 tid status feedback users2 trainers2).2
          = (users2, trainers2) ∧
      ((patchTrainerStatus d2 tid status feedback users2 trainers2).1
          = .unauthorized ∨
        (patchTrainerStatus d2 tid status feedback users2 trainers2).1
          = .forbidden)) ∧
    (∀ status : String, status ≠ "accepted" → status ≠ "rejected" →
      patchTrainerStatus (some d) tid status feedback users trainers
        = (.badRequest, users, trainers)) := by
  have hpt := List.find?_some hft
  have hanyt : trainers.any (fun x => x.tid == tid) = true :=
    List.any_eq_true.mpr ⟨t, List.mem_of_find?_eq_some hft, hpt⟩
  refine ⟨?_, ?_, ?_, ?_⟩
  · simp only [patchTrainerStatus, hfu, hft]
    rw [if_neg hde, if_neg (not_not_intro hadmin),
      if_neg (by simp), if_pos hte, if_pos hanyt]
    refine ⟨rfl, ?_⟩
    rw [findUser_updateFirst_role, hlu]
    simp
  · simp only [patchTrainerStatus, hfu, hft]
    rw [if_neg hde, if_neg (not_not_intro hadmin),
      if_neg (by simp), if_pos hte, if_pos hanyt]
    refine ⟨rfl, ?_⟩
    rw [findUser_updateFirst_role, hlu]
    simp
  · intro d2 status users2 trainers2 hnotadm
    cases d2 with
    | none => exact ⟨rfl, Or.inl rfl⟩
    | some dd =>
      by_cases he : dd.email = ""
      · simp [patchTrainerStatus, he]
      · cases hfu2 : findUser dd.email users2 with
        | none => simp [patchTrainerStatus, he, hfu2]
        | some u2 =>
          have hrole := hnotadm dd rfl he u2 hfu2
          simp [patchTrainerStatus, he, hfu2, hrole]
  · intro status h1 h2
    simp only [patchTrainerStatus, hfu]
    rw [if_neg hde, if_neg (not_not_intro hadmin), if_pos ⟨h1, h2⟩]

/-- Witness for `trainer_status_transition`: an admin accepts trainer 1;
the linked member account `t@x` becomes a trainer. -/
theorem trainer_status_transition_witness :
    (patchTrainerStatus (some ⟨"adm", none⟩) 1 "accepted" none
        [⟨"adm", none, none, "admin"⟩, ⟨"t@x", none, none, "member"⟩]
        [⟨1, "t@x", "pending", none, none, none, []⟩]).1 = .ok ∧
    findUser "t@x"
      (patchTrainerStatus (some ⟨"adm", none⟩) 1 "accepted" none
        [⟨"adm", none, none, "admin"⟩, ⟨"t@x", none, none, "member"⟩]
        [⟨1, "t@x", "pending", none, none, none, []⟩]).2.1
      = some ⟨"t@x", none, none, "trainer"⟩ :=
  (trainer_status_transition ⟨"adm", none⟩ 1 none
    [⟨"adm", none, none, "admin"⟩, ⟨"t@x", none, none, "member"⟩]
    [⟨1, "t@x", "pending", none, none, none, []⟩]
    ⟨1, "t@x", "pending", none, none, none, []⟩
    ⟨"adm", none, none, "admin"⟩ ⟨"t@x", none, none, "member"⟩
    (by decide) rfl rfl rfl (by decide) rfl).1

end FitFlow
